import Mathlib

/-!
Verification of the gox cross-compilation dispatcher (package goxlib).

The definitions below are a shallow embedding of the two source files of the
repository: the toolchain bootstrap orchestrator (`mainBuildToolchain`,
`BuildToolchain`) and the parallel build dispatcher (`CrossCompile`).
External collaborators that live outside the dispatcher (the single-unit
compile primitive `GoCrossCompile`, the per-platform build script, version
and root lookups) are passed in as function parameters, exactly as the spec
treats them: opaque primitives from options to artifact path or error.
-/

/-- Modelled from the spec: the repository's `Platform` type (defined in a
source file outside the dispatcher files) is an immutable (OS, Arch) pair
whose canonical string form is "OS/Arch". -/
structure Platform where
  os : String
  arch : String
deriving DecidableEq, Repr

/-- Modelled from the spec: `Platform.String()` renders the canonical
"OS/Arch" form. -/
def Platform.str (p : Platform) : String := p.os ++ ("/") ++ p.arch

/-- Model of `os.PathSeparator` as used in `CrossCompile` (part_000 line 304).
Its value is platform dependent; the Unix value is used here. No claim
depends on the separator character itself. -/
def pathSep : String := "/"

/-- The mutable accumulator of `CrossCompile` (part_000 lines 267, 269):
`errors` is the error-message list guarded by `errorLock`, `binPaths` the
artifact-path list guarded by `mu`. -/
structure DispatchAcc where
  errors : List String
  binPaths : List String
deriving DecidableEq, Repr

/-- Effect of one dispatcher worker body on the accumulator
(part_000 lines 295-305). `compile` stands for `GoCrossCompile`:
on error, the code appends "<platform> error: <err>" to `errors`, and then
- unconditionally, on both paths - appends `path + os.PathSeparator + binName`
to `binPaths`; on the error path `binName` still holds its zero value "". -/
def workerEffect (compile : String → Platform → Except String String)
    (path : String) (platform : Platform) (acc : DispatchAcc) : DispatchAcc :=
  match compile path platform with
  | Except.ok binName =>
      { errors := acc.errors,
        binPaths := acc.binPaths ++ [path ++ pathSep ++ binName] }
  | Except.error e =>
      { errors := acc.errors ++ [platform.str ++ (" error: ") ++ e],
        binPaths := acc.binPaths ++ [path ++ pathSep ++ ("")] }

/-- The (unit, platform) pairs dispatched by `CrossCompile`'s nested loops
(part_000 lines 271-272): platform-major, unit-minor. -/
def dispatchPairs (platforms : List Platform) (mainDirs : List String) :
    List (String × Platform) :=
  platforms.flatMap (fun pl => mainDirs.map (fun path => (path, pl)))

/-- The accumulator contents after all workers have run. The real appends
happen concurrently under locks, so the list ORDER is completion order and
nondeterministic; this model uses dispatch order. Every claim settled
against it only concerns lengths and membership, which are order
independent. -/
def runDispatch (compile : String → Platform → Except String String)
    (platforms : List Platform) (mainDirs : List String) : DispatchAcc :=
  (dispatchPairs platforms mainDirs).foldl
    (fun acc pr => workerEffect compile pr.1 pr.2 acc) ⟨[], []⟩

/-- The error values `CrossCompile` can return. `noValidPlatforms` models
`ErrNoValidPlatforms` (part_000 lines 177-179). -/
inductive GoxError
  | noValidPlatforms
  | other : String → GoxError
deriving DecidableEq, Repr

/-- Result of `CrossCompile`: the returned `([]string, error)` pair plus,
for auditing the "dispatch is never invoked" claims, the list of (unit,
platform) invocations that were dispatched. -/
structure CrossCompileOutcome where
  binPaths : Option (List String)
  err : Option GoxError
  dispatched : List (String × Platform)
deriving DecidableEq, Repr

/-- `CrossCompile` from the point where the platform list has been resolved
(part_000 lines 258-321). If the platform list is empty it returns
`(nil, ErrNoValidPlatforms)` before any worker is spawned (lines 259-261).
Otherwise it dispatches every pair, waits on the barrier, and then:
if any errors were recorded it executes `return nil, err` (line 317) - where
`err` is the residual variable last assigned by the `GoMainDirs` call at
line 252, which is provably nil on every path reaching line 317 - so the
function returns a nil list AND a nil error; on the no-error path it
returns `(binPaths, nil)`. -/
def crossCompileFrom (compile : String → Platform → Except String String)
    (platforms : List Platform) (mainDirs : List String) : CrossCompileOutcome :=
  if platforms.length = 0 then
    { binPaths := none, err := some GoxError.noValidPlatforms, dispatched := [] }
  else
    let pairs := dispatchPairs platforms mainDirs
    let acc := pairs.foldl (fun a pr => workerEffect compile pr.1 pr.2 a) ⟨[], []⟩
    if acc.errors.length > 0 then
      { binPaths := none, err := none, dispatched := pairs }
    else
      { binPaths := some acc.binPaths, err := none, dispatched := pairs }

/-- Parallelism resolution at the top of `CrossCompile`
(part_000 lines 210-225): a requested value `<= 0` resolves to
`NumCPU() - 1` (or 1 when fewer than 2 CPUs); the solaris special case
`parallel = 3` sits INSIDE the `parallel <= 0` branch, so a positive
requested value is used unchanged on every OS. -/
def resolveParallel (parallel : Int) (numCPU : Nat) (goos : String) : Int :=
  if parallel ≤ 0 then
    let fromCpus : Int := if numCPU < 2 then 1 else (numCPU : Int) - 1
    if goos = ("solaris") then 3 else fromCpus
  else parallel

/-- Observable steps of `mainBuildToolchain` after the `go`-on-PATH check
and the `GoVersionParts` call have both succeeded (part_000 lines 16-91). -/
inductive TStep
  | lookPathGo
  | readVersionParts
  | readVersion
  | readRoot
  | resolvePlatforms
  | buildWork
deriving DecidableEq, Repr

/-- Result of a `mainBuildToolchain` run: the collaborator calls performed,
the collected per-platform error messages, and the returned error value. -/
structure ToolchainRun where
  steps : List TStep
  errs : List String
  ret : Option String
deriving DecidableEq, Repr

/-- `mainBuildToolchain` (part_000 lines 16-91), given that `exec.LookPath`
and `GoVersionParts` succeeded with the parsed `(major, minor)` pair.
Line 29: when `versionParts[0] >= 1 && versionParts[1] >= 5` it prints an
informational message and executes `return err` (line 34) - `err` is the
nil error of the checked `GoVersionParts` call, so it returns nil having
done no further work. Otherwise it reads the version string (line 37), the
root (line 43), resolves platforms (line 55), and runs one build per
platform. Error aggregation (lines 82-88): each failed build appends
"<platform>: <err>" to `errs`; if `errs` is nonempty the code prints them
and executes `return err` (line 87) - `err` was last assigned by the
checked `GoRoot` call at line 43 and is nil on every path reaching line 87,
so the returned error is nil on both branches. The concurrent append order
is modelled as platform order; only emptiness and counts are used. -/
def mainBuildToolchainRun (versionParts : Int × Int) (platforms : List Platform)
    (build : Platform → Option String) : ToolchainRun :=
  if versionParts.1 ≥ 1 ∧ versionParts.2 ≥ 5 then
    { steps := [TStep.lookPathGo, TStep.readVersionParts], errs := [], ret := none }
  else
    let errs := platforms.filterMap
      (fun p => (build p).map (fun e => p.str ++ (": ") ++ e))
    { steps := [TStep.lookPathGo, TStep.readVersionParts, TStep.readVersion,
        TStep.readRoot, TStep.resolvePlatforms] ++
        platforms.map (fun _ => TStep.buildWork),
      errs := errs,
      ret := if errs.length > 0 then none else none }

/-- Concrete inputs used by the evaluation theorems. -/
def onePlatform : List Platform := [⟨("linux"), ("amd64")⟩]

def oneDir : List String := [(".")]

def failCompile : String → Platform → Except String String :=
  fun _ _ => Except.error ("build failed")

def failBuild : Platform → Option String := fun _ => some ("make.bash failed")

def scenarioPlatforms : List Platform :=
  [⟨("linux"), ("amd64")⟩, ⟨("linux"), ("386")⟩, ⟨("darwin"), ("amd64")⟩]

def scenarioDirs : List String := [("u1"), ("u2")]

/-- One invocation (unit "u1" on darwin/amd64) fails; the other five
succeed. -/
def scenarioCompile : String → Platform → Except String String :=
  fun path pl =>
    if pl.os = ("darwin") ∧ path = ("u1") then Except.error ("exit status 1")
    else Except.ok (path ++ ("_") ++ pl.os ++ ("_") ++ pl.arch)

/-- C1: the claim says that whenever at least one compile invocation fails,
`CrossCompile` returns a non-nil combined error carrying every failure's
platform identity and message. The code records the failure message
(with the platform identity) in its internal error list, but the final
`return nil, err` at part_000 line 317 returns the residual nil `err` from
the `GoMainDirs` call, so the caller receives a nil error (and a nil path
list): the combined error is never returned. This theorem evaluates the
embedding at a failing input: one platform, one unit, compile fails. -/
theorem crossCompile_nil_error_on_failure :
    (runDispatch failCompile onePlatform oneDir).errors =
        [("linux/amd64 error: build failed")] ∧
      (crossCompileFrom failCompile onePlatform oneDir).err = none ∧
      (crossCompileFrom failCompile onePlatform oneDir).binPaths = none :=
  ⟨rfl, rfl, rfl⟩

/-- C2: the claim's scenario (2 units, 3 platforms, one failure) says the
returned artifact list has exactly 5 entries and the returned error names
exactly 1 platform. On the code: the artifact append at part_000 line 304
is unconditional (on failure it appends `path + sep + ""`), so the internal
list gets 6 entries, one per invocation; and because errors occurred the
function returns `nil, err` with `err` nil (line 317), so the caller
receives neither the artifact list nor an error. The internal error list
does get exactly one entry naming the failing platform. -/
theorem crossCompile_scenario_2x3 :
    (runDispatch scenarioCompile scenarioPlatforms scenarioDirs).binPaths.length = 6 ∧
      (runDispatch scenarioCompile scenarioPlatforms scenarioDirs).errors =
        [("darwin/amd64 error: exit status 1")] ∧
      (crossCompileFrom scenarioCompile scenarioPlatforms scenarioDirs).binPaths = none ∧
      (crossCompileFrom scenarioCompile scenarioPlatforms scenarioDirs).err = none :=
  ⟨rfl, rfl, rfl, rfl⟩

/-- C4: the claim says `mainBuildToolchain` returns a non-nil combined
multi-error when at least one per-platform build failed. The code collects
the per-platform messages and prints them, but `return err` at part_000
line 87 returns the residual nil `err` of the `GoRoot` call, so the
returned error is nil even though one build failed. Evaluated at a
pre-1.5 version (1, 4) with one platform whose build fails. -/
theorem mainBuildToolchain_swallows_errors :
    (mainBuildToolchainRun (1, 4) onePlatform failBuild).errs =
        [("linux/amd64: make.bash failed")] ∧
      (mainBuildToolchainRun (1, 4) onePlatform failBuild).ret = none :=
  ⟨rfl, rfl⟩

/-- C6 counterexample: the claim says that on solaris the effective
parallelism is capped at 3 regardless of the requested value. The solaris
branch (part_000 line 222) sits inside the `parallel <= 0` default branch,
so an explicit `-parallel 10` on a 48-CPU solaris machine resolves to 10,
not at most 3. -/
theorem solaris_cap_counterexample :
    resolveParallel 10 48 ("solaris") = 10 ∧
      ¬ resolveParallel 10 48 ("solaris") ≤ 3 := by
  constructor
  · rfl
  · decide

/-- C6 amended: a requested value `<= 0` resolves to CPU-count-minus-one
floored at 1, except on solaris where the default is 3 regardless of the
CPU count; a positive requested value is used unchanged on every OS,
including solaris. In particular 0 requested on a 4-CPU machine resolves
to 3. -/
theorem resolveParallel_amended :
    (∀ (p : Int) (cpus : Nat) (goos : String),
        resolveParallel p cpus goos =
          if p ≤ 0 then
            (if goos = ("solaris") then 3 else max 1 ((cpus : Int) - 1))
          else p) ∧
      resolveParallel 0 4 ("linux") = 3 ∧ resolveParallel 0 4 ("solaris") = 3 := by
  refine ⟨fun p cpus goos => ?_, by decide, by decide⟩
  unfold resolveParallel
  by_cases h1 : p ≤ 0
  · simp only [if_pos h1]
    by_cases h2 : goos = ("solaris")
    · simp only [if_pos h2]
    · simp only [if_neg h2]
      by_cases h3 : cpus < 2
      · rw [if_pos h3, max_eq_left (by omega)]
      · rw [if_neg h3, max_eq_right (by omega)]
  · simp only [if_neg h1]

/-- C6 amended, instantiated: requested 0 on 4 CPUs resolves to 3 and
requested 10 on solaris stays 10. -/
theorem resolveParallel_amended_witness :
    resolveParallel 0 4 ("linux") =
        (if (0 : Int) ≤ 0 then
          (if ("linux") = ("solaris") then 3 else max 1 ((4 : Int) - 1))
        else 0) :=
  resolveParallel_amended.1 0 4 ("linux")

/-- C7: with an empty resolved platform list, `CrossCompile` returns the
single "no valid platforms" error (part_000 lines 259-261), a nil path
list, and dispatches no invocation at all. -/
theorem crossCompile_empty_platforms :
    ∀ (compile : String → Platform → Except String String)
      (mainDirs : List String),
      crossCompileFrom compile [] mainDirs =
        { binPaths := none, err := some GoxError.noValidPlatforms,
          dispatched := [] } :=
  fun _ _ => rfl

/-- C7, instantiated at a concrete compile function and unit list. -/
theorem crossCompile_empty_platforms_witness :
    crossCompileFrom failCompile [] oneDir =
      { binPaths := none, err := some GoxError.noValidPlatforms,
        dispatched := [] } :=
  crossCompile_empty_platforms failCompile oneDir

/-- C10: `mainBuildToolchain` short-circuits - performing no version-string
read, no root lookup, no platform resolution and no build work - exactly
when the parsed version satisfies `versionParts[0] >= 1 && versionParts[1] >= 5`
(part_000 line 29); any version with minor component below 5 proceeds with
the legacy toolchain build, including a hypothetical major version of 2,
as the second conjunct shows for version (2, 4). -/
theorem toolchain_version_short_circuit :
    (∀ (major minor : Int) (platforms : List Platform)
        (build : Platform → Option String),
        (mainBuildToolchainRun (major, minor) platforms build).steps =
            [TStep.lookPathGo, TStep.readVersionParts] ↔
          (major ≥ 1 ∧ minor ≥ 5)) ∧
      TStep.buildWork ∈ (mainBuildToolchainRun (2, 4) onePlatform failBuild).steps := by
  constructor
  · intro major minor platforms build
    unfold mainBuildToolchainRun
    by_cases h : major ≥ 1 ∧ minor ≥ 5
    · simp [h]
    · simp [h]
  · decide

/-- C10, instantiated: version (1, 5) short-circuits. -/
theorem toolchain_version_short_circuit_witness :
    (mainBuildToolchainRun (1, 5) onePlatform failBuild).steps =
        [TStep.lookPathGo, TStep.readVersionParts] ↔
      ((1 : Int) ≥ 1 ∧ (5 : Int) ≥ 5) :=
  toolchain_version_short_circuit.1 1 5 onePlatform failBuild

/-!
Interleaving model of the concurrent parts. Each worker goroutine is a
list of atomic actions still to be executed; a configuration also carries
the semaphore occupancy, an instrumented count of external invocations in
flight, the accumulator sizes, and whether the main goroutine has read the
accumulator after its `wg.Wait()` barrier.
-/

/-- Atomic actions of a worker goroutine. `acquire`/`release` are
`semaphore <- 1` / `<-semaphore`; `invokeBegin`/`invokeEnd` delimit the
external process invocation; `appendBin`/`appendErr` are the lock-guarded
accumulator appends; `done` is `wg.Done()`. -/
inductive Act
  | acquire
  | invokeBegin
  | invokeEnd
  | appendBin
  | appendErr
  | done
  | release
deriving DecidableEq, Repr

/-- Body of one `CrossCompile` worker (part_000 lines 275-307), in source
order: `defer wg.Done()` makes `done` the last action; the permit is
acquired before the `GoCrossCompile` invocation; on failure the error
append precedes the (unconditional) artifact append; the permit release
`<-semaphore` is the last statement before returning on both paths. -/
def dispatchBody (fail : Bool) : List Act :=
  [Act.acquire, Act.invokeBegin, Act.invokeEnd] ++
    (if fail then [Act.appendErr] else []) ++
    [Act.appendBin, Act.release, Act.done]

/-- Body of one toolchain-orchestrator worker (part_000 lines 69-78 with
`BuildToolchain` lines 93-96): inside `BuildToolchain`, `wg.Done()` is
deferred first and the release is deferred after the acquire, so on return
the deferred calls run release first, then `done`; the spawning goroutine
then appends the error - AFTER `done` - when the build failed. -/
def toolchainBody (fail : Bool) : List Act :=
  [Act.acquire, Act.invokeBegin, Act.invokeEnd, Act.release, Act.done] ++
    (if fail then [Act.appendErr] else [])

/-- A system configuration: remaining program of every worker, semaphore
occupancy, in-flight invocation count, accumulator sizes, and whether the
caller has read the accumulator past the barrier. -/
structure Conf where
  workers : List (List Act)
  sem : Nat
  running : Nat
  binCnt : Nat
  errCnt : Nat
  readDone : Bool
deriving DecidableEq, Repr

/-- Small-step interleaving semantics with semaphore capacity `cap`.
A scheduler picks any worker and runs its next action; `acquire` blocks
while the semaphore is full; the caller's `read` (the accumulator reads
after `wg.Wait()`, part_000 lines 80-88 and 310-318) is enabled once every
worker has executed its `wg.Done()`. -/
inductive Step (cap : Nat) : Conf → Conf → Prop
  | acquire (l1 l2 : List (List Act)) (rest : List Act) (s r b e : Nat)
      (rd : Bool) (h : s < cap) :
      Step cap ⟨l1 ++ (Act.acquire :: rest) :: l2, s, r, b, e, rd⟩
        ⟨l1 ++ rest :: l2, s + 1, r, b, e, rd⟩
  | invokeBegin (l1 l2 : List (List Act)) (rest : List Act) (s r b e : Nat)
      (rd : Bool) :
      Step cap ⟨l1 ++ (Act.invokeBegin :: rest) :: l2, s, r, b, e, rd⟩
        ⟨l1 ++ rest :: l2, s, r + 1, b, e, rd⟩
  | invokeEnd (l1 l2 : List (List Act)) (rest : List Act) (s r b e : Nat)
      (rd : Bool) :
      Step cap ⟨l1 ++ (Act.invokeEnd :: rest) :: l2, s, r, b, e, rd⟩
        ⟨l1 ++ rest :: l2, s, r - 1, b, e, rd⟩
  | appendBin (l1 l2 : List (List Act)) (rest : List Act) (s r b e : Nat)
      (rd : Bool) :
      Step cap ⟨l1 ++ (Act.appendBin :: rest) :: l2, s, r, b, e, rd⟩
        ⟨l1 ++ rest :: l2, s, r, b + 1, e, rd⟩
  | appendErr (l1 l2 : List (List Act)) (rest : List Act) (s r b e : Nat)
      (rd : Bool) :
      Step cap ⟨l1 ++ (Act.appendErr :: rest) :: l2, s, r, b, e, rd⟩
        ⟨l1 ++ rest :: l2, s, r, b, e + 1, rd⟩
  | done (l1 l2 : List (List Act)) (rest : List Act) (s r b e : Nat)
      (rd : Bool) :
      Step cap ⟨l1 ++ (Act.done :: rest) :: l2, s, r, b, e, rd⟩
        ⟨l1 ++ rest :: l2, s, r, b, e, rd⟩
  | release (l1 l2 : List (List Act)) (rest : List Act) (s r b e : Nat)
      (rd : Bool) :
      Step cap ⟨l1 ++ (Act.release :: rest) :: l2, s, r, b, e, rd⟩
        ⟨l1 ++ rest :: l2, s - 1, r, b, e, rd⟩
  | read (w : List (List Act)) (s r b e : Nat)
      (h : ∀ x ∈ w, Act.done ∉ x) :
      Step cap ⟨w, s, r, b, e, false⟩ ⟨w, s, r, b, e, true⟩

/-- Initial configuration of a `CrossCompile` dispatch: one worker per
(unit, platform) pair, `fails` recording which invocations will fail. -/
def dispatchInit (fails : List Bool) : Conf :=
  ⟨fails.map dispatchBody, 0, 0, 0, 0, false⟩

/-- Initial configuration of a toolchain-orchestrator run. -/
def toolInit (fails : List Bool) : Conf :=
  ⟨fails.map toolchainBody, 0, 0, 0, 0, false⟩

/-- A worker is inside the region entered by `enter` and left by `leave`
when its remaining program still contains `leave` but no longer contains
`enter`. -/
def regionP (enter leave : Act) (w : List Act) : Bool :=
  decide (leave ∈ w ∧ enter ∉ w)

/-- Worker currently holds a semaphore permit. -/
def permitP : List Act → Bool := regionP Act.acquire Act.release

/-- Worker currently has an external invocation in flight. -/
def runningP : List Act → Bool := regionP Act.invokeBegin Act.invokeEnd

/-- Every list of actions that can appear as the remaining program of a
worker: the suffixes of the two body shapes, failing or not. -/
def suffixPool : List (List Act) :=
  (dispatchBody true).tails ++ (dispatchBody false).tails ++
    (toolchainBody true).tails ++ (toolchainBody false).tails

lemma pool_tail : ∀ v ∈ suffixPool, v.tail ∈ suffixPool := by decide

lemma pool_after_acquire : ∀ v ∈ suffixPool,
    v.head? = some Act.acquire →
      Act.release ∈ v.tail ∧ Act.acquire ∉ v.tail := by decide

lemma pool_after_release : ∀ v ∈ suffixPool,
    v.head? = some Act.release →
      Act.release ∉ v.tail ∧ Act.acquire ∉ v.tail := by decide

lemma pool_after_invokeBegin : ∀ v ∈ suffixPool,
    v.head? = some Act.invokeBegin →
      Act.invokeEnd ∈ v.tail ∧ Act.invokeBegin ∉ v.tail := by decide

lemma pool_after_invokeEnd : ∀ v ∈ suffixPool,
    v.head? = some Act.invokeEnd →
      Act.invokeEnd ∉ v.tail ∧ Act.invokeBegin ∉ v.tail := by decide

lemma pool_running_imp_permit : ∀ v ∈ suffixPool,
    runningP v = true → permitP v = true := by decide

/-- Consing an action that neither enters nor leaves a region does not
change region membership. -/
lemma regionP_cons_other (enter leave a : Act) (rest : List Act)
    (ha : a ≠ enter) (hl : a ≠ leave) :
    regionP enter leave (a :: rest) = regionP enter leave rest := by
  unfold regionP
  rw [decide_eq_decide]
  constructor
  · rintro ⟨h1, h2⟩
    rcases List.mem_cons.mp h1 with h3 | h3
    · exact absurd h3.symm hl
    · exact ⟨h3, fun h4 => h2 (List.mem_cons_of_mem a h4)⟩
  · rintro ⟨h1, h2⟩
    refine ⟨List.mem_cons_of_mem a h1, fun h4 => ?_⟩
    rcases List.mem_cons.mp h4 with h5 | h5
    · exact ha h5.symm
    · exact h2 h5

lemma regionP_enter_head (enter leave : Act) (rest : List Act) :
    regionP enter leave (enter :: rest) = false := by
  unfold regionP
  simp

lemma regionP_of_mem (enter leave : Act) (w : List Act)
    (h1 : leave ∈ w) (h2 : enter ∉ w) : regionP enter leave w = true := by
  unfold regionP
  exact decide_eq_true ⟨h1, h2⟩

lemma regionP_of_not_mem (enter leave : Act) (w : List Act)
    (h1 : leave ∉ w) : regionP enter leave w = false := by
  unfold regionP
  simp [h1]

/-- Count of workers inside a two-delimiter region, split around the
worker the scheduler picked. -/
lemma countP_mid (p : List Act → Bool) (l1 l2 : List (List Act))
    (x : List Act) :
    (l1 ++ x :: l2).countP p =
      l1.countP p + l2.countP p + (if p x then 1 else 0) := by
  simp only [List.countP_append, List.countP_cons]
  omega

lemma countP_le_of_imp (p q : List Act → Bool) :
    ∀ l : List (List Act), (∀ w ∈ l, p w = true → q w = true) →
      l.countP p ≤ l.countP q := by
  intro l
  induction l with
  | nil => intro _; exact Nat.le_refl 0
  | cons a t ih =>
      intro h
      rw [List.countP_cons, List.countP_cons]
      have h2 := ih (fun w hw => h w (List.mem_cons_of_mem a hw))
      by_cases hp : p a = true
      · rw [if_pos hp, if_pos (h a (List.mem_cons_self a t) hp)]
        omega
      · rw [if_neg hp]
        omega

/-- Invariant tying the semaphore occupancy and in-flight counter to the
worker programs: `sem` counts workers holding a permit, `running` counts
workers with an invocation in flight, and the occupancy never exceeds the
capacity. -/
structure SysInv (cap : Nat) (c : Conf) : Prop where
  wf : ∀ w ∈ c.workers, w ∈ suffixPool
  sem_eq : c.sem = c.workers.countP permitP
  run_eq : c.running = c.workers.countP runningP
  sem_le : c.sem ≤ cap

lemma wf_update {l1 l2 : List (List Act)} {x y : List Act}
    (h : ∀ w ∈ l1 ++ x :: l2, w ∈ suffixPool) (hy : y ∈ suffixPool) :
    ∀ w ∈ l1 ++ y :: l2, w ∈ suffixPool := by
  intro w hw
  rcases List.mem_append.mp hw with h1 | h1
  · exact h w (List.mem_append_left _ h1)
  · rcases List.mem_cons.mp h1 with h2 | h2
    · exact h2 ▸ hy
    · exact h w (List.mem_append_right _ (List.mem_cons_of_mem _ h2))

lemma mem_middle (l1 l2 : List (List Act)) (x : List Act) :
    x ∈ l1 ++ x :: l2 :=
  List.mem_append_right _ (List.mem_cons_self _ _)

lemma not_mem_cons {x a : Act} {rest : List Act} (h1 : x ≠ a) (h2 : x ∉ rest) :
    x ∉ a :: rest := by
  intro h3
  rcases List.mem_cons.mp h3 with h4 | h4
  · exact h1 h4
  · exact h2 h4

lemma countP_mid_true (p : List Act → Bool) (l1 l2 : List (List Act))
    {x : List Act} (hx : p x = true) :
    (l1 ++ x :: l2).countP p = l1.countP p + l2.countP p + 1 := by
  rw [countP_mid, hx]
  simp

lemma countP_mid_false (p : List Act → Bool) (l1 l2 : List (List Act))
    {x : List Act} (hx : p x = false) :
    (l1 ++ x :: l2).countP p = l1.countP p + l2.countP p := by
  rw [countP_mid, hx]
  simp

lemma countP_mid_congr (p : List Act → Bool) (l1 l2 : List (List Act))
    {x y : List Act} (hxy : p x = p y) :
    (l1 ++ x :: l2).countP p = (l1 ++ y :: l2).countP p := by
  rw [countP_mid, countP_mid, hxy]

/-- Every scheduler step preserves the semaphore/in-flight invariant. -/
lemma step_inv {cap : Nat} {c c2 : Conf} (hinv : SysInv cap c)
    (hs : Step cap c c2) : SysInv cap c2 := by
  cases hs with
  | acquire l1 l2 rest s r b e rd h =>
      obtain ⟨hwf, hsem, hrun, hle⟩ := hinv
      have hmem : (Act.acquire :: rest) ∈ suffixPool := hwf _ (mem_middle l1 l2 _)
      obtain ⟨hrel, hacq⟩ := pool_after_acquire _ hmem rfl
      have hp1 : permitP (Act.acquire :: rest) = false :=
        regionP_enter_head Act.acquire Act.release rest
      have hp2 : permitP rest = true := regionP_of_mem _ _ _ hrel hacq
      have hq1 : runningP (Act.acquire :: rest) = runningP rest :=
        regionP_cons_other _ _ _ rest (by decide) (by decide)
      refine ⟨wf_update hwf (pool_tail _ hmem), ?_, ?_, ?_⟩
      · show s + 1 = (l1 ++ rest :: l2).countP permitP
        replace hsem : s = (l1 ++ (Act.acquire :: rest) :: l2).countP permitP := hsem
        rw [countP_mid_false permitP l1 l2 hp1] at hsem
        rw [countP_mid_true permitP l1 l2 hp2]
        omega
      · show r = (l1 ++ rest :: l2).countP runningP
        replace hrun : r = (l1 ++ (Act.acquire :: rest) :: l2).countP runningP := hrun
        rw [countP_mid_congr runningP l1 l2 hq1] at hrun
        exact hrun
      · show s + 1 ≤ cap
        omega
  | invokeBegin l1 l2 rest s r b e rd =>
      obtain ⟨hwf, hsem, hrun, hle⟩ := hinv
      have hmem : (Act.invokeBegin :: rest) ∈ suffixPool := hwf _ (mem_middle l1 l2 _)
      obtain ⟨hend, hbeg⟩ := pool_after_invokeBegin _ hmem rfl
      have hq1 : runningP (Act.invokeBegin :: rest) = false :=
        regionP_enter_head Act.invokeBegin Act.invokeEnd rest
      have hq2 : runningP rest = true := regionP_of_mem _ _ _ hend hbeg
      have hp1 : permitP (Act.invokeBegin :: rest) = permitP rest :=
        regionP_cons_other _ _ _ rest (by decide) (by decide)
      refine ⟨wf_update hwf (pool_tail _ hmem), ?_, ?_, ?_⟩
      · show s = (l1 ++ rest :: l2).countP permitP
        replace hsem : s = (l1 ++ (Act.invokeBegin :: rest) :: l2).countP permitP := hsem
        rw [countP_mid_congr permitP l1 l2 hp1] at hsem
        exact hsem
      · show r + 1 = (l1 ++ rest :: l2).countP runningP
        replace hrun : r = (l1 ++ (Act.invokeBegin :: rest) :: l2).countP runningP := hrun
        rw [countP_mid_false runningP l1 l2 hq1] at hrun
        rw [countP_mid_true runningP l1 l2 hq2]
        omega
      · show s ≤ cap
        exact hle
  | invokeEnd l1 l2 rest s r b e rd =>
      obtain ⟨hwf, hsem, hrun, hle⟩ := hinv
      have hmem : (Act.invokeEnd :: rest) ∈ suffixPool := hwf _ (mem_middle l1 l2 _)
      obtain ⟨hend, hbeg⟩ := pool_after_invokeEnd _ hmem rfl
      have hq1 : runningP (Act.invokeEnd :: rest) = true :=
        regionP_of_mem _ _ _ (List.mem_cons_self _ _) (not_mem_cons (by decide) hbeg)
      have hq2 : runningP rest = false := regionP_of_not_mem _ _ _ hend
      have hp1 : permitP (Act.invokeEnd :: rest) = permitP rest :=
        regionP_cons_other _ _ _ rest (by decide) (by decide)
      refine ⟨wf_update hwf (pool_tail _ hmem), ?_, ?_, ?_⟩
      · show s = (l1 ++ rest :: l2).countP permitP
        replace hsem : s = (l1 ++ (Act.invokeEnd :: rest) :: l2).countP permitP := hsem
        rw [countP_mid_congr permitP l1 l2 hp1] at hsem
        exact hsem
      · show r - 1 = (l1 ++ rest :: l2).countP runningP
        replace hrun : r = (l1 ++ (Act.invokeEnd :: rest) :: l2).countP runningP := hrun
        rw [countP_mid_true runningP l1 l2 hq1] at hrun
        rw [countP_mid_false runningP l1 l2 hq2]
        omega
      · show s ≤ cap
        exact hle
  | appendBin l1 l2 rest s r b e rd =>
      obtain ⟨hwf, hsem, hrun, hle⟩ := hinv
      have hmem : (Act.appendBin :: rest) ∈ suffixPool := hwf _ (mem_middle l1 l2 _)
      have hp1 : permitP (Act.appendBin :: rest) = permitP rest :=
        regionP_cons_other _ _ _ rest (by decide) (by decide)
      have hq1 : runningP (Act.appendBin :: rest) = runningP rest :=
        regionP_cons_other _ _ _ rest (by decide) (by decide)
      refine ⟨wf_update hwf (pool_tail _ hmem), ?_, ?_, ?_⟩
      · show s = (l1 ++ rest :: l2).countP permitP
        replace hsem : s = (l1 ++ (Act.appendBin :: rest) :: l2).countP permitP := hsem
        rw [countP_mid_congr permitP l1 l2 hp1] at hsem
        exact hsem
      · show r = (l1 ++ rest :: l2).countP runningP
        replace hrun : r = (l1 ++ (Act.appendBin :: rest) :: l2).countP runningP := hrun
        rw [countP_mid_congr runningP l1 l2 hq1] at hrun
        exact hrun
      · show s ≤ cap
        exact hle
  | appendErr l1 l2 rest s r b e rd =>
      obtain ⟨hwf, hsem, hrun, hle⟩ := hinv
      have hmem : (Act.appendErr :: rest) ∈ suffixPool := hwf _ (mem_middle l1 l2 _)
      have hp1 : permitP (Act.appendErr :: rest) = permitP rest :=
        regionP_cons_other _ _ _ rest (by decide) (by decide)
      have hq1 : runningP (Act.appendErr :: rest) = runningP rest :=
        regionP_cons_other _ _ _ rest (by decide) (by decide)
      refine ⟨wf_update hwf (pool_tail _ hmem), ?_, ?_, ?_⟩
      · show s = (l1 ++ rest :: l2).countP permitP
        replace hsem : s = (l1 ++ (Act.appendErr :: rest) :: l2).countP permitP := hsem
        rw [countP_mid_congr permitP l1 l2 hp1] at hsem
        exact hsem
      · show r = (l1 ++ rest :: l2).countP runningP
        replace hrun : r = (l1 ++ (Act.appendErr :: rest) :: l2).countP runningP := hrun
        rw [countP_mid_congr runningP l1 l2 hq1] at hrun
        exact hrun
      · show s ≤ cap
        exact hle
  | done l1 l2 rest s r b e rd =>
      obtain ⟨hwf, hsem, hrun, hle⟩ := hinv
      have hmem : (Act.done :: rest) ∈ suffixPool := hwf _ (mem_middle l1 l2 _)
      have hp1 : permitP (Act.done :: rest) = permitP rest :=
        regionP_cons_other _ _ _ rest (by decide) (by decide)
      have hq1 : runningP (Act.done :: rest) = runningP rest :=
        regionP_cons_other _ _ _ rest (by decide) (by decide)
      refine ⟨wf_update hwf (pool_tail _ hmem), ?_, ?_, ?_⟩
      · show s = (l1 ++ rest :: l2).countP permitP
        replace hsem : s = (l1 ++ (Act.done :: rest) :: l2).countP permitP := hsem
        rw [countP_mid_congr permitP l1 l2 hp1] at hsem
        exact hsem
      · show r = (l1 ++ rest :: l2).countP runningP
        replace hrun : r = (l1 ++ (Act.done :: rest) :: l2).countP runningP := hrun
        rw [countP_mid_congr runningP l1 l2 hq1] at hrun
        exact hrun
      · show s ≤ cap
        exact hle
  | release l1 l2 rest s r b e rd =>
      obtain ⟨hwf, hsem, hrun, hle⟩ := hinv
      have hmem : (Act.release :: rest) ∈ suffixPool := hwf _ (mem_middle l1 l2 _)
      obtain ⟨hrel, hacq⟩ := pool_after_release _ hmem rfl
      have hp1 : permitP (Act.release :: rest) = true :=
        regionP_of_mem _ _ _ (List.mem_cons_self _ _) (not_mem_cons (by decide) hacq)
      have hp2 : permitP rest = false := regionP_of_not_mem _ _ _ hrel
      have hq1 : runningP (Act.release :: rest) = runningP rest :=
        regionP_cons_other _ _ _ rest (by decide) (by decide)
      refine ⟨wf_update hwf (pool_tail _ hmem), ?_, ?_, ?_⟩
      · show s - 1 = (l1 ++ rest :: l2).countP permitP
        replace hsem : s = (l1 ++ (Act.release :: rest) :: l2).countP permitP := hsem
        rw [countP_mid_true permitP l1 l2 hp1] at hsem
        rw [countP_mid_false permitP l1 l2 hp2]
        omega
      · show r = (l1 ++ rest :: l2).countP runningP
        replace hrun : r = (l1 ++ (Act.release :: rest) :: l2).countP runningP := hrun
        rw [countP_mid_congr runningP l1 l2 hq1] at hrun
        exact hrun
      · show s - 1 ≤ cap
        replace hle : s ≤ cap := hle
        omega
  | read w s r b e h =>
      obtain ⟨hwf, hsem, hrun, hle⟩ := hinv
      exact ⟨hwf, hsem, hrun, hle⟩

/-- The invariant holds in every configuration reachable from an
invariant-satisfying one. -/
lemma reach_inv {cap : Nat} {c0 c : Conf} (h0 : SysInv cap c0)
    (h : Relation.ReflTransGen (Step cap) c0 c) : SysInv cap c := by
  induction h with
  | refl => exact h0
  | tail _ hstep ih => exact step_inv ih hstep

lemma countP_map_zero (p : List Act → Bool) (f : Bool → List Act)
    (h : ∀ b, p (f b) = false) :
    ∀ l : List Bool, (l.map f).countP p = 0 := by
  intro l
  induction l with
  | nil => rfl
  | cons a t ih => simp [List.countP_cons, h, ih]

lemma dispatchBody_mem_pool : ∀ b, dispatchBody b ∈ suffixPool := by decide

lemma toolchainBody_mem_pool : ∀ b, toolchainBody b ∈ suffixPool := by decide

lemma permitP_dispatchBody : ∀ b, permitP (dispatchBody b) = false := by decide

lemma runningP_dispatchBody : ∀ b, runningP (dispatchBody b) = false := by decide

lemma permitP_toolchainBody : ∀ b, permitP (toolchainBody b) = false := by decide

lemma runningP_toolchainBody : ∀ b, runningP (toolchainBody b) = false := by decide

lemma dispatchInit_inv (cap : Nat) (fails : List Bool) :
    SysInv cap (dispatchInit fails) := by
  refine ⟨?_, ?_, ?_, Nat.zero_le cap⟩
  · intro w hw
    rcases List.mem_map.mp hw with ⟨b, _, rfl⟩
    exact dispatchBody_mem_pool b
  · exact (countP_map_zero _ _ permitP_dispatchBody fails).symm
  · exact (countP_map_zero _ _ runningP_dispatchBody fails).symm

lemma toolInit_inv (cap : Nat) (fails : List Bool) :
    SysInv cap (toolInit fails) := by
  refine ⟨?_, ?_, ?_, Nat.zero_le cap⟩
  · intro w hw
    rcases List.mem_map.mp hw with ⟨b, _, rfl⟩
    exact toolchainBody_mem_pool b
  · exact (countP_map_zero _ _ permitP_toolchainBody fails).symm
  · exact (countP_map_zero _ _ runningP_toolchainBody fails).symm

lemma inv_running_le {cap : Nat} {c : Conf} (h : SysInv cap c) :
    c.running ≤ cap := by
  have h1 : c.workers.countP runningP ≤ c.workers.countP permitP :=
    countP_le_of_imp _ _ c.workers
      (fun w hw => pool_running_imp_permit w (h.wf w hw))
  rw [h.run_eq]
  calc c.workers.countP runningP ≤ c.workers.countP permitP := h1
    _ = c.sem := h.sem_eq.symm
    _ ≤ cap := h.sem_le

/-- C5: through every interleaving of a `CrossCompile` dispatch with
semaphore capacity `cap` (the resolved parallelism), the number of
external compile invocations in flight never exceeds `cap`, and neither
does the number of permits held. This holds for any mix of failing and
succeeding workers: the worker body translated from part_000 lines 275-307
acquires the permit before invoking and releases it on the failure path
too, since the error branch falls through to the final release. -/
theorem crossCompile_parallel_bound (cap : Nat) (fails : List Bool) (c : Conf)
    (h : Relation.ReflTransGen (Step cap) (dispatchInit fails) c) :
    c.running ≤ cap ∧ c.sem ≤ cap := by
  have hinv := reach_inv (dispatchInit_inv cap fails) h
  exact ⟨inv_running_le hinv, hinv.sem_le⟩

/-- C5, instantiated at capacity 2 with one failing and one succeeding
worker, at the initial configuration. -/
theorem crossCompile_parallel_bound_witness :
    (dispatchInit [true, false]).running ≤ 2 ∧
      (dispatchInit [true, false]).sem ≤ 2 :=
  crossCompile_parallel_bound 2 [true, false] (dispatchInit [true, false])
    Relation.ReflTransGen.refl

/-- Output lines and semaphore capacity chosen by `mainBuildToolchain`
before launching workers. -/
structure ToolchainSetup where
  output : List String
  semCap : Nat
deriving DecidableEq, Repr

/-- Abridged text of the diagnostic printed at part_000 lines 59-61. -/
def toolchainSerialDiag : String :=
  "The toolchain build cannot be parallelized; platforms are built one at a time."

/-- The guard at part_000 lines 57-68: when the requested parallelism is
greater than 1 a diagnostic is printed first; then `parallel = 1`
unconditionally, and the semaphore is created with that capacity. -/
def toolchainSetup (parallel : Int) : ToolchainSetup :=
  let output := if parallel > 1 then [toolchainSerialDiag] else []
  let parallelAfter : Int := 1
  { output := output, semCap := parallelAfter.toNat }

/-- C8: for every requested parallelism value the orchestrator creates its
semaphore with capacity 1, so in every reachable configuration of every
interleaving at most one build script invocation is in flight; and the
serialization diagnostic is printed exactly when the caller requested more
than 1. -/
theorem toolchain_serialized (requested : Int) (fails : List Bool) (c : Conf)
    (h : Relation.ReflTransGen (Step (toolchainSetup requested).semCap)
      (toolInit fails) c) :
    (toolchainSetup requested).semCap = 1 ∧ c.running ≤ 1 ∧
      ((toolchainSetup requested).output = [toolchainSerialDiag] ↔
        1 < requested) := by
  have hinv := reach_inv (toolInit_inv (toolchainSetup requested).semCap fails) h
  refine ⟨rfl, inv_running_le hinv, ?_⟩
  unfold toolchainSetup
  by_cases h1 : requested > 1
  · simp [h1]
  · simp [h1]

/-- C8, instantiated at requested parallelism 2 with one failing platform,
at the initial configuration. -/
theorem toolchain_serialized_witness :
    (toolchainSetup 2).semCap = 1 ∧ (toolInit [true]).running ≤ 1 ∧
      ((toolchainSetup 2).output = [toolchainSerialDiag] ↔ 1 < (2 : Int)) :=
  toolchain_serialized 2 [true] (toolInit [true]) Relation.ReflTransGen.refl

/-- Configuration reached after the orchestrator's single failing worker
has run through `wg.Done()` and the main goroutine has read the error
list, while the worker's error append is still pending. -/
def racePre : Conf := ⟨[[Act.appendErr]], 0, 0, 0, 0, true⟩

/-- Configuration after the pending error append lands, past the read. -/
def racePost : Conf := ⟨[[]], 0, 0, 0, 1, true⟩

/-- C3: the claimed invariant - the accumulator is read only after every
worker has completed all of its appends - fails for the toolchain
orchestrator. In `BuildToolchain` (part_000 lines 93-96) `wg.Done()` is
deferred inside the callee, but the error append happens in the spawning
goroutine (lines 71-78) after `BuildToolchain` returns, so `done` precedes
`appendErr` in the worker body. The execution exhibited here - one
platform whose build fails, semaphore capacity 1 - reaches a configuration
in which the barrier has been passed and the error list has been read
(`readDone = true`) while the worker still has its `appendErr` pending,
and that very append then executes as the next step: the read is
concurrent with a worker write, and the recorded error can be missed. -/
theorem mainBuildToolchain_read_write_race :
    Relation.ReflTransGen (Step 1) (toolInit [true]) racePre ∧
      racePre.readDone = true ∧
      (∃ w ∈ racePre.workers, Act.appendErr ∈ w) ∧
      Step 1 racePre racePost ∧
      racePost.errCnt = racePre.errCnt + 1 := by
  refine ⟨?_, rfl, ⟨[Act.appendErr], by decide, by decide⟩, ?_, rfl⟩
  · exact Relation.ReflTransGen.head
      (Step.acquire [] []
        [Act.invokeBegin, Act.invokeEnd, Act.release, Act.done, Act.appendErr]
        0 0 0 0 false (by omega))
      (Relation.ReflTransGen.head
        (Step.invokeBegin [] []
          [Act.invokeEnd, Act.release, Act.done, Act.appendErr] 1 0 0 0 false)
        (Relation.ReflTransGen.head
          (Step.invokeEnd [] [] [Act.release, Act.done, Act.appendErr]
            1 1 0 0 false)
          (Relation.ReflTransGen.head
            (Step.release [] [] [Act.done, Act.appendErr] 1 0 0 0 false)
            (Relation.ReflTransGen.head
              (Step.done [] [] [Act.appendErr] 0 0 0 0 false)
              (Relation.ReflTransGen.head
                (Step.read [[Act.appendErr]] 0 0 0 0 (by decide))
                Relation.ReflTransGen.refl)))))
  · exact Step.appendErr [] [] [] 0 0 0 0 true

/-- Events of one `BuildToolchain` execution in verbose mode
(part_000 lines 93-147). -/
inductive BTEv
  | wgDone
  | acquireSem
  | releaseSem
  | printHeader
  | pipeSetup
  | readerSpawn
  | cmdStart
  | cmdWait
  | pipeClose
  | readerJoin
  | funcReturn
deriving DecidableEq, Repr

/-- Statements of the straight-line body: emit an event, register a
deferred event sequence, or return. -/
inductive BTStmt
  | ev : BTEv → BTStmt
  | deferRun : List BTEv → BTStmt
  | ret : BTStmt
deriving DecidableEq, Repr

/-- Run the registered deferred functions. Go runs defers LIFO; the stack
below is pushed at the front, so left-to-right folding is LIFO order. -/
def flushDefers (ds : List (List BTEv)) : List BTEv :=
  ds.foldl (fun acc d => acc ++ d) []

/-- Execute a statement list with Go defer semantics: deferred sequences
run, last registered first, when the function returns - by explicit
`return` or by falling off the end - and only then does control return to
the caller (`funcReturn`). -/
def runBT : List BTStmt → List (List BTEv) → List BTEv
  | [], ds => flushDefers ds ++ [BTEv.funcReturn]
  | BTStmt.ev e :: rest, ds => e :: runBT rest ds
  | BTStmt.deferRun d :: rest, ds => runBT rest (d :: ds)
  | BTStmt.ret :: _, ds => flushDefers ds ++ [BTEv.funcReturn]

/-- The statement sequence of `BuildToolchain` (part_000 lines 93-147):
`defer wg.Done()` (line 94); acquire and `defer` release (lines 95-96);
header print (line 97); in verbose mode, pipe setup, the streaming reader
goroutine, and `defer func() { w.Close(); <-doneCh }()` (lines 116-135) -
`readerJoin` models the `<-doneCh` wait, which the reader goroutine
signals via `defer close(doneCh)` only after its line-delimited read loop
has drained the pipe to end-of-stream; `pipeClose` models `w.Close()`,
which is what lets the reader reach end-of-stream. Then `cmd.Start()`
(line 137) with an early return on launch failure, and `cmd.Wait()`
(line 141) with an early return on non-zero exit. -/
def buildToolchainStmts (verbose startOk waitOk : Bool) : List BTStmt :=
  [BTStmt.deferRun [BTEv.wgDone],
   BTStmt.ev BTEv.acquireSem,
   BTStmt.deferRun [BTEv.releaseSem],
   BTStmt.ev BTEv.printHeader] ++
  (if verbose then
      [BTStmt.ev BTEv.pipeSetup, BTStmt.ev BTEv.readerSpawn,
       BTStmt.deferRun [BTEv.pipeClose, BTEv.readerJoin]]
    else []) ++
  [BTStmt.ev BTEv.cmdStart] ++
  (if startOk then
      [BTStmt.ev BTEv.cmdWait] ++ (if waitOk then [] else [BTStmt.ret])
    else [BTStmt.ret])

/-- The event trace of one `BuildToolchain` call. -/
def buildToolchainTrace (verbose startOk waitOk : Bool) : List BTEv :=
  runBT (buildToolchainStmts verbose startOk waitOk) []

/-- C9: in verbose mode, on every exit path - process-launch failure
(`startOk = false`), non-zero exit (`waitOk = false`) and success - the
trace waits on the reader-completion signal (`readerJoin`, the `<-doneCh`
that the reader closes only after draining the pipe to end-of-stream)
strictly before control returns to the caller, and closes the write end of
the pipe strictly before that wait, so the wait can terminate. -/
theorem buildToolchain_verbose_drains :
    ∀ startOk waitOk : Bool,
      BTEv.readerJoin ∈ buildToolchainTrace true startOk waitOk ∧
        (buildToolchainTrace true startOk waitOk).indexOf BTEv.readerJoin <
          (buildToolchainTrace true startOk waitOk).indexOf BTEv.funcReturn ∧
        (buildToolchainTrace true startOk waitOk).indexOf BTEv.pipeClose <
          (buildToolchainTrace true startOk waitOk).indexOf BTEv.readerJoin := by
  intro startOk waitOk
  cases startOk <;> cases waitOk <;> decide

/-- C9, instantiated at the process-launch-failure path. -/
theorem buildToolchain_verbose_drains_witness :
    BTEv.readerJoin ∈ buildToolchainTrace true false false ∧
      (buildToolchainTrace true false false).indexOf BTEv.readerJoin <
        (buildToolchainTrace true false false).indexOf BTEv.funcReturn ∧
      (buildToolchainTrace true false false).indexOf BTEv.pipeClose <
        (buildToolchainTrace true false false).indexOf BTEv.readerJoin :=
  buildToolchain_verbose_drains false false
